import Mathlib

/-!
# verilogAST: rendering of the Verilog abstract syntax tree

A shallow embedding of `include/verilogAST.hpp` and `src/verilogAST.cpp`.

* A C++ class with data members becomes a structure (leaf classes) or a
  constructor of the inductive type of its base class (recursive classes).
* `toString()` becomes a function into `Except Error String`: the only
  `throw` reachable from a `toString` body is the `std::runtime_error` of
  `NumericLiteral::toString`; an expression for which the source declares no
  operation has no value either, and is kept apart as `Error.ill_formed`.
* `unsigned int` is a natural number; the statements below hold for every
  natural number, hence for every value below `2 ^ 32`.
* The operands of a C++ `+` chain are evaluated in an unspecified order.  All
  failures carry the same `runtime_error`, so the left-to-right order used
  here yields the same result as any other order.
-/

namespace verilogAST

/-! ## Errors -/

/-- The ways in which an operation yields no value: the exception
`std::runtime_error(what)` thrown by the library, and an expression for which
the source declares no operation. -/
inductive Error where
  | runtime_error (what : String)
  | ill_formed (expression : String)
  deriving DecidableEq, Repr

deriving instance DecidableEq for Except

/-- The message of the `throw` in `NumericLiteral::toString`
(`verilogAST.cpp`, lines 5-7: two adjacent literals, concatenated). -/
def signedNotImplemented : String :=
  "NumericLiteral::toString when _signed == True has " ++ "not been implemented"

/-! ## Constant expressions -/

/-- The enumeration `Radix` (`verilogAST.hpp`, line 35). -/
inductive Radix where
  | BINARY
  | OCTAL
  | HEX
  | DECIMAL
  deriving DecidableEq, Repr

/-- The function `std::to_string(unsigned)`: the decimal numeral of `n`. -/
def to_string (n : Nat) : String := Nat.repr n

/-- The class `NumericLiteral` (`verilogAST.hpp`, lines 37-64). -/
structure NumericLiteral where
  value : String
  size : Nat
  _signed : Bool
  radix : Radix
  deriving DecidableEq, Repr

namespace NumericLiteral

/-- The constructor `NumericLiteral(value, size, _signed, radix)`. -/
def new4 (value : String) (size : Nat) (_signed : Bool) (radix : Radix) :
    NumericLiteral :=
  { value := value, size := size, _signed := _signed, radix := radix }

/-- The constructor `NumericLiteral(value, size, _signed)`. -/
def new3 (value : String) (size : Nat) (_signed : Bool) : NumericLiteral :=
  { value := value, size := size, _signed := _signed, radix := Radix.DECIMAL }

/-- The constructor `NumericLiteral(value, size)`. -/
def new2 (value : String) (size : Nat) : NumericLiteral :=
  { value := value, size := size, _signed := false, radix := Radix.DECIMAL }

/-- The constructor `NumericLiteral(value)`. -/
def new1 (value : String) : NumericLiteral :=
  { value := value, size := 32, _signed := false, radix := Radix.DECIMAL }

/-- The `switch (radix)` of `NumericLiteral::toString`. -/
def radix_str : Radix → Char
  | Radix.BINARY => 'b'
  | Radix.OCTAL => 'o'
  | Radix.HEX => 'h'
  | Radix.DECIMAL => 'd'

/-- The method `NumericLiteral::toString` (`verilogAST.cpp`, lines 3-25). -/
def toString (n : NumericLiteral) : Except Error String :=
  if n._signed then
    Except.error (Error.runtime_error signedNotImplemented)
  else
    Except.ok (((to_string n.size ++ "'").push (radix_str n.radix)) ++ n.value)

end NumericLiteral

/-- The class `Parameter` (`verilogAST.hpp`, lines 24-32). -/
structure Parameter where
  name : String
  deriving DecidableEq, Repr

/-- The method `Parameter::toString` (`verilogAST.hpp`, line 31). -/
def Parameter.toString (p : Parameter) : Except Error String :=
  Except.ok p.name

/-- The enumeration `BinOp::BinOp` (`verilogAST.hpp`, lines 97-115). -/
inductive BinOp where
  | LSHIFT
  | RSHIFT
  | AND
  | OR
  | EQ
  | NEQ
  | ADD
  | SUB
  | MUL
  | DIV
  | POW
  | MOD
  | ALSHIFT
  | ARSHIFT
  deriving DecidableEq, Repr

/-- The enumeration `UnOp::UnOp` (`verilogAST.hpp`, lines 142-156). -/
inductive UnOp where
  | NOT
  | INVERT
  | AND
  | NAND
  | OR
  | NOR
  | XOR
  | NXOR
  | XNOR
  | PLUS
  | MINUS
  deriving DecidableEq, Repr

/-- The `switch (op)` of `BinaryOp::toString` (`verilogAST.cpp`, lines 39-83). -/
def BinaryOp.op_str : BinOp → String
  | BinOp.LSHIFT => "<<"
  | BinOp.RSHIFT => ">>"
  | BinOp.AND => "&&"
  | BinOp.OR => "||"
  | BinOp.EQ => "=="
  | BinOp.NEQ => "!="
  | BinOp.ADD => "+"
  | BinOp.SUB => "-"
  | BinOp.MUL => "*"
  | BinOp.DIV => "/"
  | BinOp.POW => "**"
  | BinOp.MOD => "%"
  | BinOp.ALSHIFT => "<<<"
  | BinOp.ARSHIFT => ">>>"

/-- The `switch (op)` of `UnaryOp::toString` (`verilogAST.cpp`, lines 88-123). -/
def UnaryOp.op_str : UnOp → String
  | UnOp.NOT => "!"
  | UnOp.INVERT => "~"
  | UnOp.AND => "&"
  | UnOp.NAND => "~&"
  | UnOp.OR => "|"
  | UnOp.NOR => "~|"
  | UnOp.XOR => "^"
  | UnOp.NXOR => "~^"
  | UnOp.XNOR => "^~"
  | UnOp.PLUS => "+"
  | UnOp.MINUS => "-"

/-- The abstract class `ConstantExpression` (`verilogAST.hpp`, lines 19-22)
with its subclasses `Parameter`, `NumericLiteral`, `ConstantUnaryOp` and
`ConstantTernaryOp`.  (`ConstantBinaryOp` derives from `Expression`, line 129,
and is a constructor of `Expression` below.) -/
inductive ConstantExpression where
  | ofParameter (p : Parameter)
  | ofNumericLiteral (n : NumericLiteral)
  | ConstantUnaryOp (operand : ConstantExpression) (op : UnOp)
  | ConstantTernaryOp (cond true_value false_value : ConstantExpression)
  deriving Repr

/-- Modelled from the spec: the bodies of `ConstantUnaryOp::toString` and
`ConstantTernaryOp::toString`, declared in `verilogAST.hpp` (lines 175, 197)
and absent from `verilogAST.cpp`; they follow section 4.4, "rendering is
`<op> <operand>`" and "ternary rendering is `<cond> ? <then> : <else>`", with
the symbols of `UnaryOp::toString`.  The cases `Parameter` and
`NumericLiteral` are the virtual dispatch to the source methods. -/
def ConstantExpression.toString : ConstantExpression → Except Error String
  | ConstantExpression.ofParameter p => p.toString
  | ConstantExpression.ofNumericLiteral n => n.toString
  | ConstantExpression.ConstantUnaryOp operand op => do
      let o ← operand.toString
      pure ((UnaryOp.op_str op).push ' ' ++ o)
  | ConstantExpression.ConstantTernaryOp cond true_value false_value => do
      let c ← cond.toString
      let t ← true_value.toString
      let f ← false_value.toString
      pure (c ++ " ? " ++ t ++ " : " ++ f)

/-! ## Expressions -/

/-- The class `Identifier` (`verilogAST.hpp`, lines 68-75). -/
structure Identifier where
  value : String
  deriving DecidableEq, Repr

/-- The method `Identifier::toString` (`verilogAST.cpp`, line 27). -/
def Identifier.toString (i : Identifier) : Except Error String :=
  Except.ok i.value

/-- The class `Index` (`verilogAST.hpp`, lines 77-84). -/
structure Index where
  id : Identifier
  index : ConstantExpression
  deriving Repr

/-- The method `Index::toString` (`verilogAST.cpp`, lines 29-31). -/
def Index.toString (x : Index) : Except Error String := do
  let i ← x.id.toString
  let n ← x.index.toString
  pure (((i.push '[') ++ n).push ']')

/-- The class `Slice` (`verilogAST.hpp`, lines 86-95). -/
structure Slice where
  id : Identifier
  high_index : ConstantExpression
  low_index : ConstantExpression
  deriving Repr

/-- The method `Slice::toString` (`verilogAST.cpp`, lines 33-36). -/
def Slice.toString (x : Slice) : Except Error String := do
  let i ← x.id.toString
  let h ← x.high_index.toString
  let l ← x.low_index.toString
  pure (((((i.push '[') ++ h).push ':') ++ l).push ']')

/-- The abstract class `Expression` (`verilogAST.hpp`, lines 14-17) with its
subclasses.  The constructors `of...` are the conversions of a pointer to a
leaf class into `Expression *`; the others are the recursive classes with
their data members, in the order of the C++ constructor arguments. -/
inductive Expression where
  | ofConstantExpression (c : ConstantExpression)
  | ofIdentifier (i : Identifier)
  | ofIndex (x : Index)
  | ofSlice (x : Slice)
  | BinaryOp (left : Expression) (op : BinOp) (right : Expression)
  | ConstantBinaryOp (left : ConstantExpression) (op : BinOp)
      (right : ConstantExpression)
  | UnaryOp (operand : Expression) (op : UnOp)
  | TernaryOp (cond true_value false_value : Expression)
  | NegEdge (value : Expression)
  | PosEdge (value : Expression)
  deriving Repr

/-- Modelled from the spec: the body of `ConstantBinaryOp::toString`, declared
in `verilogAST.hpp` (line 138) and absent from `verilogAST.cpp`; it follows
section 4.4, "rendering is `<left> <op> <right>` with single-space padding; both
constant and general binary-op variants share identical symbol mapping". -/
def ConstantBinaryOp.toString (left : ConstantExpression) (op : BinOp)
    (right : ConstantExpression) : Except Error String := do
  let l ← left.toString
  let r ← right.toString
  pure ((((l.push ' ') ++ BinaryOp.op_str op).push ' ') ++ r)

/-- The virtual method `Expression::toString`: for each class, its body in
`verilogAST.cpp` (`BinaryOp` lines 38-85, `UnaryOp` 87-125, `TernaryOp`
127-130, `NegEdge` 132, `PosEdge` 134), and the dispatch to the methods of the
leaf classes and of `ConstantBinaryOp` above. -/
def Expression.toString : Expression → Except Error String
  | Expression.ofConstantExpression c => c.toString
  | Expression.ofIdentifier i => i.toString
  | Expression.ofIndex x => x.toString
  | Expression.ofSlice x => x.toString
  | Expression.BinaryOp left op right => do
      let l ← left.toString
      let r ← right.toString
      pure ((((l.push ' ') ++ BinaryOp.op_str op).push ' ') ++ r)
  | Expression.ConstantBinaryOp left op right => ConstantBinaryOp.toString left op right
  | Expression.UnaryOp operand op => do
      let o ← operand.toString
      pure ((UnaryOp.op_str op).push ' ' ++ o)
  | Expression.TernaryOp cond true_value false_value => do
      let c ← cond.toString
      let t ← true_value.toString
      let f ← false_value.toString
      pure (c ++ " ? " ++ t ++ " : " ++ f)
  | Expression.NegEdge value => do
      let v ← value.toString
      pure ("negedge " ++ v)
  | Expression.PosEdge value => do
      let v ← value.toString
      pure ("posedge " ++ v)

/-! ## Ports -/

/-- The type `std::variant<Identifier *, Index *, Slice *>` of a port target,
a declared name, an assignment target and a connection. -/
inductive Target where
  | ofIdentifier (i : Identifier)
  | ofIndex (x : Index)
  | ofSlice (x : Slice)
  deriving Repr

/-- The function `variant_to_string<Identifier *, Index *, Slice *>`
(`verilogAST.cpp`, lines 136-140): the `toString` of the alternative held. -/
def Target.variant_to_string : Target → Except Error String
  | Target.ofIdentifier i => i.toString
  | Target.ofIndex x => x.toString
  | Target.ofSlice x => x.toString

/-- The enumeration `Direction` (`verilogAST.hpp`, line 216). -/
inductive Direction where
  | INPUT
  | OUTPUT
  | INOUT
  deriving DecidableEq, Repr

/-- The enumeration `PortType` (`verilogAST.hpp`, line 219). -/
inductive PortType where
  | WIRE
  | REG
  deriving DecidableEq, Repr

/-- The class `Port` (`verilogAST.hpp`, lines 221-238). -/
structure Port where
  value : Target
  direction : Direction
  data_type : PortType
  deriving Repr

/-- The `switch (direction)` of `Port::toString`. -/
def Port.direction_str : Direction → String
  | Direction.INPUT => "input"
  | Direction.OUTPUT => "output"
  | Direction.INOUT => "inout"

/-- The `switch (data_type)` of `Port::toString`. -/
def Port.data_type_str : PortType → String
  | PortType.WIRE => ""
  | PortType.REG => "reg "

/-- The method `Port::toString` (`verilogAST.cpp`, lines 142-168). -/
def Port.toString (p : Port) : Except Error String := do
  let value_str ← p.value.variant_to_string
  pure (Port.direction_str p.direction ++ " " ++ Port.data_type_str p.data_type ++ value_str)

/-- The function `join` (`verilogAST.cpp`, lines 170-178): the loop over the
indices `i` of `vec`, which appends the separator when `i > 0` and then
`vec[i]`. -/
def join (vec : List String) (separator : String) : String :=
  vec.enum.foldl
    (fun result it => (if it.1 > 0 then result ++ separator else result) ++ it.2) ""

/-! ## Declarations and assignments -/

/-- The class `Declaration` (`verilogAST.hpp`, lines 273-284). -/
structure Declaration where
  value : Target
  decl : String
  deriving Repr

/-- The class `Wire` (`verilogAST.hpp`, lines 286-290). -/
def Wire.new (value : Target) : Declaration :=
  { value := value, decl := "wire" }

/-- The class `Reg` (`verilogAST.hpp`, lines 292-296). -/
def Reg.new (value : Target) : Declaration :=
  { value := value, decl := "reg" }

/-- Modelled from the spec: the body of `Declaration::toString`, declared in
`verilogAST.hpp` (line 283) and absent from `verilogAST.cpp`; it follows
section 4.6, "declaration rendering: `<storage-kind> <target>;`". -/
def Declaration.toString (d : Declaration) : Except Error String := do
  let value_str ← d.value.variant_to_string
  pure (d.decl ++ " " ++ value_str ++ ";")

/-- The class `Assign` (`verilogAST.hpp`, lines 298-314); `prefix_` is the data
member `prefix`. -/
structure Assign where
  target : Target
  value : Expression
  prefix_ : String
  symbol : String
  deriving Repr

/-- The constructor `Assign(target, value, prefix)`, with `symbol("=")`. -/
def Assign.new3 (target : Target) (value : Expression) (prefix_ : String) : Assign :=
  { target := target, value := value, prefix_ := prefix_, symbol := "=" }

/-- The constructor `Assign(target, value, prefix, symbol)`. -/
def Assign.new4 (target : Target) (value : Expression) (prefix_ symbol : String) : Assign :=
  { target := target, value := value, prefix_ := prefix_, symbol := symbol }

/-- The constructor of `ContinuousAssign` (`verilogAST.hpp`, lines 318-320). -/
def ContinuousAssign.new (target : Target) (value : Expression) : Assign :=
  Assign.new3 target value "assign "

/-- The constructor of `BlockingAssign` (`verilogAST.hpp`, lines 329-331). -/
def BlockingAssign.new (target : Target) (value : Expression) : Assign :=
  Assign.new3 target value ""

/-- The constructor of `NonBlockingAssign` (`verilogAST.hpp`, lines 338-340). -/
def NonBlockingAssign.new (target : Target) (value : Expression) : Assign :=
  Assign.new4 target value "" "<="

/-- Modelled from the spec: the body of `Assign::toString`, declared in
`verilogAST.hpp` (line 313) and absent from `verilogAST.cpp`; it follows
section 4.7, "assign rendering: `<lead><target> <symbol> <value>;`". -/
def Assign.toString (a : Assign) : Except Error String := do
  let target_str ← a.target.variant_to_string
  let value_str ← a.value.toString
  pure (a.prefix_ ++ target_str ++ " " ++ a.symbol ++ " " ++ value_str ++ ";")

/-- The abstract class `BehavioralStatement` (`verilogAST.hpp`, line 242) with
its subclasses `BlockingAssign` and `NonBlockingAssign`, each with the
arguments of its constructor. -/
inductive BehavioralStatement where
  | BlockingAssign (target : Target) (value : Expression)
  | NonBlockingAssign (target : Target) (value : Expression)
  deriving Repr

/-- The methods `BlockingAssign::toString` and `NonBlockingAssign::toString`
(`verilogAST.hpp`, lines 333, 342): `return Assign::toString();`. -/
def BehavioralStatement.toString : BehavioralStatement → Except Error String
  | BehavioralStatement.BlockingAssign target value =>
      (BlockingAssign.new target value).toString
  | BehavioralStatement.NonBlockingAssign target value =>
      (NonBlockingAssign.new target value).toString

/-! ## Module instantiation -/

/-- The type `std::map<std::string, std::variant<Identifier *, Index *, Slice *>>`
of the connections, as the sequence of its entries in iteration order: the
keys are strictly ascending in the lexicographic order of their characters,
the order of `std::string`. -/
structure Connections where
  entries : List (String × Target)
  ascending : entries.Pairwise (fun a b => a.1.toList < b.1.toList)

/-- The class `ModuleInstantiation` (`verilogAST.hpp`, lines 245-271). -/
structure ModuleInstantiation where
  module_name : String
  parameters : List (Parameter × ConstantExpression)
  instance_name : String
  connections : Connections

/-- Modelled from the spec: the body of `ModuleInstantiation::toString`,
declared in `verilogAST.hpp` (line 270) and absent from `verilogAST.cpp`; it
follows section 4.8, "`<module_name> #(<comma-joined .param(value) for each
actual parameter, in insertion order>) <instance_name>(<comma-joined
.port(connection) for each connection, in map order>);`" and "if the parameter
list is empty, the `#(...)` clause is omitted entirely", with the `join` and
the shape of `Module::toString`. -/
def ModuleInstantiation.toString (m : ModuleInstantiation) : Except Error String := do
  let module_inst_str := m.module_name
  let module_inst_str ←
    if !m.parameters.isEmpty then do
      let param_strs ← m.parameters.mapM (fun it => do
        let p ← it.1.toString
        let v ← it.2.toString
        pure ("." ++ p ++ "(" ++ v ++ ")"))
      pure (module_inst_str ++ " #(" ++ join param_strs ", " ++ ")")
    else
      pure module_inst_str
  let connection_strs ← m.connections.entries.mapM (fun it => do
    let c ← it.2.variant_to_string
    pure ("." ++ it.1 ++ "(" ++ c ++ ")"))
  pure (module_inst_str ++ " " ++ m.instance_name ++ "(" ++ join connection_strs ", " ++ ");")

/-- The abstract class `StructuralStatement` (`verilogAST.hpp`, line 243) with
its subclasses `ModuleInstantiation` and `ContinuousAssign`. -/
inductive StructuralStatement where
  | ofModuleInstantiation (m : ModuleInstantiation)
  | ContinuousAssign (target : Target) (value : Expression)

/-- The virtual method `toString` of a `StructuralStatement`:
`ModuleInstantiation::toString`, and `ContinuousAssign::toString`
(`verilogAST.hpp`, line 322), which is `return Assign::toString();`. -/
def StructuralStatement.toString : StructuralStatement → Except Error String
  | StructuralStatement.ofModuleInstantiation m => m.toString
  | StructuralStatement.ContinuousAssign target value =>
      (ContinuousAssign.new target value).toString

/-! ## Always blocks -/

/-- The method `Star::toString` (`verilogAST.hpp`, line 347). -/
def Star.toString : Except Error String :=
  Except.ok "*"

/-- The type `std::variant<Identifier *, PosEdge *, NegEdge *, Star *>` of an
item of a sensitivity list; an edge holds the expression of its `value`
member. -/
inductive SensitivityItem where
  | ofIdentifier (i : Identifier)
  | ofPosEdge (value : Expression)
  | ofNegEdge (value : Expression)
  | ofStar
  deriving Repr

/-- The `toString` of the alternative held by an item of a sensitivity list. -/
def SensitivityItem.variant_to_string : SensitivityItem → Except Error String
  | SensitivityItem.ofIdentifier i => i.toString
  | SensitivityItem.ofPosEdge value => (Expression.PosEdge value).toString
  | SensitivityItem.ofNegEdge value => (Expression.NegEdge value).toString
  | SensitivityItem.ofStar => Star.toString

/-- The type `std::variant<BehavioralStatement *, Declaration *>` of a
statement of the body of an always block. -/
inductive AlwaysStatement where
  | ofBehavioralStatement (s : BehavioralStatement)
  | ofDeclaration (d : Declaration)
  deriving Repr

/-- The `toString` of the alternative held by a statement of an always body. -/
def AlwaysStatement.variant_to_string : AlwaysStatement → Except Error String
  | AlwaysStatement.ofBehavioralStatement s => s.toString
  | AlwaysStatement.ofDeclaration d => d.toString

/-- The data members of the class `Always` (`verilogAST.hpp`, lines 350-353). -/
structure Always where
  sensitivity_list : List SensitivityItem
  body : List AlwaysStatement
  deriving Repr

/-- The message of the `throw` in the constructor of `Always`. -/
def emptySensitivityList : String :=
  "vAST::Always expects non-empty sensitivity list"

/-- The constructor `Always(sensitivity_list, body)` (`verilogAST.hpp`, lines
356-364): it throws when the sensitivity list is empty. -/
def Always.new (sensitivity_list : List SensitivityItem) (body : List AlwaysStatement) :
    Except Error Always :=
  if sensitivity_list.isEmpty then
    Except.error (Error.runtime_error emptySensitivityList)
  else
    Except.ok { sensitivity_list := sensitivity_list, body := body }

/-- Modelled from the spec: the body of `Always::toString`, declared in
`verilogAST.hpp` (line 365) and absent from `verilogAST.cpp`; it follows
section 4.7, "`always @(<comma-joined sensitivity-list items>) begin\n<body
statements, each followed by ;\n>end\n`", with the `join` and the loops of
`Module::toString`.  A statement of the body is an assignment or a
declaration, whose text ends with its `;` (sections 4.6 and 4.7); the loop
appends the newline after it, which gives each statement followed by `;` and
a newline, as in the expected texts of `TestAlways` and `TestAlwaysStar`
(`tests/basic.cpp`, lines 284-288 and 300-304). -/
def Always.toString (a : Always) : Except Error String := do
  let always_str := "always @("
  let sensitivity_list_strs ← a.sensitivity_list.mapM SensitivityItem.variant_to_string
  let always_str := always_str ++ join sensitivity_list_strs ", " ++ ") begin\n"
  let always_str ← a.body.foldlM
    (fun str statement => do
      let statement_str ← statement.variant_to_string
      pure (str ++ (statement_str ++ "\n")))
    always_str
  pure (always_str ++ "end\n")

/-! ## Modules -/

/-- The type `std::variant<Always *, StructuralStatement *, Declaration *>` of
a statement of the body of a module. -/
inductive ModuleStatement where
  | ofAlways (a : Always)
  | ofStructuralStatement (s : StructuralStatement)
  | ofDeclaration (d : Declaration)

/-- The function `variant_to_string<Always *, StructuralStatement *,
Declaration *>` (`verilogAST.cpp`, lines 136-140). -/
def ModuleStatement.variant_to_string : ModuleStatement → Except Error String
  | ModuleStatement.ofAlways a => a.toString
  | ModuleStatement.ofStructuralStatement s => s.toString
  | ModuleStatement.ofDeclaration d => d.toString

/-- The class `Module` (`verilogAST.hpp`, lines 368-385). -/
structure Module where
  name : String
  ports : List Port
  body : List ModuleStatement
  parameters : List (Parameter × NumericLiteral)

/-- The expression `"parameter " + it.first` of `Module::toString`
(`verilogAST.cpp`, line 189): the left operand is a string literal and
`it.first` is a `Parameter *` (`verilogAST.hpp`, line 374).  The source
declares no `+` for these operands, so the expression has no value, whatever
the parameter. -/
def Module.parameter_plus (_ : String) (_ : Parameter) : Except Error String :=
  Except.error (Error.ill_formed "\"parameter \" + it.first")

/-- The method `Module::toString` (`verilogAST.cpp`, lines 180-213).  The body
of the loop over the formal parameters is evaluated once for each parameter,
hence not at all for a module without formal parameters. -/
def Module.toString (m : Module) : Except Error String := do
  let module_str := ""
  let module_str := module_str ++ ("module " ++ m.name)
  let module_str ←
    if !m.parameters.isEmpty then do
      let module_str := module_str ++ " #("
      let param_strs ← m.parameters.mapM (fun it => do
        let p ← Module.parameter_plus "parameter " it.1
        let d ← it.2.toString
        pure (p ++ " = " ++ d))
      let module_str := module_str ++ join param_strs ", "
      pure (module_str ++ ")")
    else
      pure module_str
  let module_str := module_str ++ " ("
  let ports_strs ← m.ports.mapM Port.toString
  let module_str := module_str ++ join ports_strs ", "
  let module_str := module_str ++ ");\n"
  let module_str ← m.body.foldlM
    (fun str statement => do
      let statement_str ← statement.variant_to_string
      pure (str ++ (statement_str ++ ";\n")))
    module_str
  pure (module_str ++ "endmodule\n")

/-! ## Files -/

/-- The class `File` (`verilogAST.hpp`, lines 387-393). -/
structure File where
  modules : List Module

/-- Modelled from the spec: the body of `File::toString`, declared in
`verilogAST.hpp` (line 392) and absent from `verilogAST.cpp`; it follows
section 4.9, "file rendering: each module's rendering, modules separated by a
blank line, in list order", with the `join` and the loop of
`Module::toString`; a module text ends with a newline, and the separator is
one more newline. -/
def File.toString (f : File) : Except Error String := do
  let file_strs ← f.modules.mapM Module.toString
  pure (join file_strs "\n")

/-! ## Reference definitions, following the wording of the specification -/

/-- The decimal numeral of `n` without leading zeros: the positional digits
of `n` in base ten, most significant first, and the single digit `0` for
zero. -/
def decimalNumeral (n : Nat) : String :=
  String.mk (if n = 0 then ['0'] else ((Nat.digits 10 n).reverse.map Nat.digitChar))

/-- The radix characters of section 4.1: binary `b`, octal `o`, hex `h`,
decimal `d`. -/
def radixChar : Radix → String
  | Radix.BINARY => "b"
  | Radix.OCTAL => "o"
  | Radix.HEX => "h"
  | Radix.DECIMAL => "d"

/-- A legal simple Verilog identifier (section 4.2): it starts with an ASCII
letter or an underscore, contains only ASCII letters, digits, underscores and
`$`, and is not a reserved keyword.  The table of reserved keywords is a
parameter. -/
def isSimpleIdentifier (keywords : List String) (name : String) : Bool :=
  match name.toList with
  | [] => false
  | c :: cs =>
    (c.isAlpha || c == '_') &&
      cs.all (fun d => d.isAlphanum || d == '_' || d == '$') &&
      !(keywords.contains name)

/-- The escaped form of an identifier (section 4.2): a backslash, the name,
one trailing space. -/
def escapedIdentifier (name : String) : String :=
  "\\" ++ name ++ " "

/-- The binary operator symbols of section 4.4. -/
def binOpSymbols : List (BinOp × String) :=
  [(BinOp.LSHIFT, "<<"), (BinOp.RSHIFT, ">>"), (BinOp.AND, "&&"), (BinOp.OR, "||"),
   (BinOp.EQ, "=="), (BinOp.NEQ, "!="), (BinOp.ADD, "+"), (BinOp.SUB, "-"),
   (BinOp.MUL, "*"), (BinOp.DIV, "/"), (BinOp.POW, "**"), (BinOp.MOD, "%"),
   (BinOp.ALSHIFT, "<<<"), (BinOp.ARSHIFT, ">>>")]

/-- The unary operator symbols of section 4.4. -/
def unOpSymbols : List (UnOp × String) :=
  [(UnOp.NOT, "!"), (UnOp.INVERT, "~"), (UnOp.AND, "&"), (UnOp.NAND, "~&"),
   (UnOp.OR, "|"), (UnOp.NOR, "~|"), (UnOp.XOR, "^"), (UnOp.NXOR, "~^"),
   (UnOp.XNOR, "^~"), (UnOp.PLUS, "+"), (UnOp.MINUS, "-")]

/-- The direction words of section 4.6. -/
def directionWords : List (Direction × String) :=
  [(Direction.INPUT, "input"), (Direction.OUTPUT, "output"), (Direction.INOUT, "inout")]

/-- The kind text of a port (section 4.6): `reg ` for a reg, empty for a wire. -/
def kindText (kind : PortType) : String :=
  if kind = PortType.REG then "reg " else ""

/-- The texts of `lines`, each followed by `terminator`, in list order. -/
def terminated (terminator : String) : List String → String
  | [] => ""
  | line :: lines => line ++ terminator ++ terminated terminator lines

/-- The entries `parameter <p> = <default>` of a module header (section 4.9),
for the formal parameters and the texts of their default values. -/
def parameterEntries (params : List (Parameter × NumericLiteral)) (defaults : List String) :
    List String :=
  List.zipWith (fun it d => "parameter " ++ it.1.name ++ " = " ++ d) params defaults

/-- The text of a module (section 4.9) for the name, the parameter entries,
the port texts and the texts of the body statements: `module <name>`, the
clause ` #(...)` of the comma-joined entries when there is one, ` (` with the
comma-joined ports and `);`, a newline, each statement followed by `;` and a
newline, and `endmodule` with a newline. -/
def moduleText (name : String) (entries ports statements : List String) : String :=
  "module " ++ name ++
    (if entries.isEmpty then "" else " #(" ++ ", ".intercalate entries ++ ")") ++
    " (" ++ ", ".intercalate ports ++ ");\n" ++ terminated ";\n" statements ++ "endmodule\n"

/-- Modelled from the spec: the fixture `make_simple_params` of the tests
(`tests/common.cpp`, absent), by section 8: the parameters `param0` and
`param1` with the values `NumericLiteral("0")` and `NumericLiteral("1")`. -/
def make_simple_params : List (Parameter × ConstantExpression) :=
  [(Parameter.mk "param0", ConstantExpression.ofNumericLiteral (NumericLiteral.new1 "0")),
   (Parameter.mk "param1", ConstantExpression.ofNumericLiteral (NumericLiteral.new1 "1"))]

/-- Modelled from the spec: the fixture `make_simple_connections` of the tests
(`tests/common.cpp`, absent), by section 8: `a` to `a`, `b` to `b[0]` and `c`
to `c[31:0]`, with bounds built by `NumericLiteral(value)`. -/
def make_simple_connections : Connections :=
  { entries :=
      [("a", Target.ofIdentifier (Identifier.mk "a")),
       ("b", Target.ofIndex (Index.mk (Identifier.mk "b")
          (ConstantExpression.ofNumericLiteral (NumericLiteral.new1 "0")))),
       ("c", Target.ofSlice (Slice.mk (Identifier.mk "c")
          (ConstantExpression.ofNumericLiteral (NumericLiteral.new1 "31"))
          (ConstantExpression.ofNumericLiteral (NumericLiteral.new1 "0"))))]
    ascending := by decide }

/-- Modelled from the spec: the fixture `make_simple_ports` of the tests
(`tests/common.cpp`, absent), by section 8: the wire ports `input i` and
`output o`. -/
def make_simple_ports : List Port :=
  [Port.mk (Target.ofIdentifier (Identifier.mk "i")) Direction.INPUT PortType.WIRE,
   Port.mk (Target.ofIdentifier (Identifier.mk "o")) Direction.OUTPUT PortType.WIRE]

/-- Modelled from the spec: the fixture `make_simple_body` of the tests
(`tests/common.cpp`, absent), by section 8: the single instantiation of
`other_module`, named `other_module_inst`, with the simple parameters and
connections. -/
def make_simple_body : List ModuleStatement :=
  [ModuleStatement.ofStructuralStatement
    (StructuralStatement.ofModuleInstantiation
      { module_name := "other_module"
        parameters := make_simple_params
        instance_name := "other_module_inst"
        connections := make_simple_connections })]

/-- Some `NumericLiteral` of the constant expression has its signed flag set. -/
def ConstantExpression.hasSigned : ConstantExpression → Bool
  | ConstantExpression.ofParameter _ => false
  | ConstantExpression.ofNumericLiteral n => n._signed
  | ConstantExpression.ConstantUnaryOp operand _ => operand.hasSigned
  | ConstantExpression.ConstantTernaryOp cond true_value false_value =>
      cond.hasSigned || true_value.hasSigned || false_value.hasSigned

/-- Some `NumericLiteral` occurring anywhere in the expression tree has its
signed flag set. -/
def Expression.hasSigned : Expression → Bool
  | Expression.ofConstantExpression c => c.hasSigned
  | Expression.ofIdentifier _ => false
  | Expression.ofIndex x => x.index.hasSigned
  | Expression.ofSlice x => x.high_index.hasSigned || x.low_index.hasSigned
  | Expression.BinaryOp left _ right => left.hasSigned || right.hasSigned
  | Expression.ConstantBinaryOp left _ right => left.hasSigned || right.hasSigned
  | Expression.UnaryOp operand _ => operand.hasSigned
  | Expression.TernaryOp cond true_value false_value =>
      cond.hasSigned || true_value.hasSigned || false_value.hasSigned
  | Expression.NegEdge value => value.hasSigned
  | Expression.PosEdge value => value.hasSigned

/-- The expression tree is built from `Identifier`, `Parameter`,
`NumericLiteral`, `Index`, `Slice`, `BinaryOp`, `UnaryOp`, `TernaryOp`,
`NegEdge` and `PosEdge` only: the classes whose `toString` is in
`verilogAST.cpp` or, for `Parameter`, in `verilogAST.hpp`. -/
def Expression.isGeneral : Expression → Bool
  | Expression.ofConstantExpression (ConstantExpression.ofParameter _) => true
  | Expression.ofConstantExpression (ConstantExpression.ofNumericLiteral _) => true
  | Expression.ofConstantExpression _ => false
  | Expression.ofIdentifier _ => true
  | Expression.ofIndex x =>
      match x.index with
      | ConstantExpression.ofParameter _ => true
      | ConstantExpression.ofNumericLiteral _ => true
      | _ => false
  | Expression.ofSlice x =>
      (match x.high_index with
        | ConstantExpression.ofParameter _ => true
        | ConstantExpression.ofNumericLiteral _ => true
        | _ => false) &&
      (match x.low_index with
        | ConstantExpression.ofParameter _ => true
        | ConstantExpression.ofNumericLiteral _ => true
        | _ => false)
  | Expression.BinaryOp left _ right => left.isGeneral && right.isGeneral
  | Expression.ConstantBinaryOp _ _ _ => false
  | Expression.UnaryOp operand _ => operand.isGeneral
  | Expression.TernaryOp cond true_value false_value =>
      cond.isGeneral && true_value.isGeneral && false_value.isGeneral
  | Expression.NegEdge value => value.isGeneral
  | Expression.PosEdge value => value.isGeneral

/-! ## Strings and numerals -/

theorem push_eq_append (s : String) (c : Char) : s.push c = s ++ String.singleton c := rfl

theorem toDigitsCore_eq_digits (fuel : Nat) :
    ∀ (n : Nat) (ds : List Char), 0 < n → n < fuel →
      Nat.toDigitsCore 10 fuel n ds =
        (Nat.digits 10 n).reverse.map Nat.digitChar ++ ds := by
  induction fuel with
  | zero => intro n ds _ h; omega
  | succ fuel ih =>
    intro n ds hpos hlt
    have hdig : Nat.digits 10 n = (n % 10) :: Nat.digits 10 (n / 10) :=
      Nat.digits_def' (by decide) hpos
    rw [Nat.toDigitsCore]
    by_cases hq : n / 10 = 0
    · simp [hq, hdig]
    · have hq0 : 0 < n / 10 := Nat.pos_of_ne_zero hq
      have hqlt : n / 10 < fuel := by omega
      simp only [hq, if_false]
      rw [ih (n / 10) _ hq0 hqlt, hdig]
      simp

theorem to_string_eq_decimalNumeral (n : Nat) : to_string n = decimalNumeral n := by
  unfold to_string decimalNumeral Nat.repr Nat.toDigits
  by_cases h : n = 0
  · subst h; rfl
  · have := toDigitsCore_eq_digits (n + 1) n [] (Nat.pos_of_ne_zero h) (by omega)
    simp [h, this, List.asString]

theorem binOpSymbols_iff (op : BinOp) (sym : String) :
    (op, sym) ∈ binOpSymbols ↔ sym = BinaryOp.op_str op := by
  cases op <;> simp [binOpSymbols, BinaryOp.op_str]

theorem unOpSymbols_iff (op : UnOp) (sym : String) :
    (op, sym) ∈ unOpSymbols ↔ sym = UnaryOp.op_str op := by
  cases op <;> simp [unOpSymbols, UnaryOp.op_str]

theorem directionWords_iff (d : Direction) (w : String) :
    (d, w) ∈ directionWords ↔ w = Port.direction_str d := by
  cases d <;> simp [directionWords, Port.direction_str]

theorem join_loop_eq_go (sep : String) :
    ∀ (l : List String) (n : Nat) (acc : String), 0 < n →
      (l.enumFrom n).foldl
          (fun result it => (if it.1 > 0 then result ++ sep else result) ++ it.2) acc =
        String.intercalate.go acc sep l
  | [], _, _, _ => rfl
  | a :: as, n, acc, h => by
    simp only [List.enumFrom, List.foldl, String.intercalate.go, gt_iff_lt, h, if_true]
    exact join_loop_eq_go sep as (n + 1) _ (Nat.succ_pos n)

theorem join_eq_intercalate (vec : List String) (sep : String) :
    join vec sep = sep.intercalate vec := by
  cases vec with
  | nil => rfl
  | cons a as =>
    have h := join_loop_eq_go sep as 1 ("" ++ a) Nat.one_pos
    simp only [join, List.enum, List.enumFrom, List.foldl, String.intercalate, gt_iff_lt,
      Nat.lt_irrefl, if_false]
    rw [h]
    have he : "" ++ a = a := String.ext (by simp)
    rw [he]

theorem mapM_render {α : Type} (g : α → Except Error String) (f : α → String → String) :
    ∀ (l : List α) (ds : List String), l.mapM g = Except.ok ds →
      l.mapM (fun it => do let d ← g it; pure (f it d)) = Except.ok (List.zipWith f l ds)
  | [], ds, h => by
    simp only [List.mapM_nil, pure, Except.pure, Except.ok.injEq] at h
    subst h
    rfl
  | a :: l, ds, h => by
    rw [List.mapM_cons] at h
    rw [List.mapM_cons]
    cases ha : g a with
    | error e => rw [ha] at h; cases h
    | ok d =>
      cases hl : l.mapM g with
      | error e => rw [ha, hl] at h; cases h
      | ok ds1 =>
        rw [ha, hl] at h
        simp only [bind, Except.bind, pure, Except.pure, Except.ok.injEq] at h
        subst h
        rw [mapM_render g f l ds1 hl]
        rfl

theorem mapM_length {α : Type} (g : α → Except Error String) :
    ∀ (l : List α) (ds : List String), l.mapM g = Except.ok ds → ds.length = l.length
  | [], ds, h => by
    simp only [List.mapM_nil, pure, Except.pure, Except.ok.injEq] at h
    subst h
    rfl
  | a :: l, ds, h => by
    rw [List.mapM_cons] at h
    cases ha : g a with
    | error e => rw [ha] at h; cases h
    | ok d =>
      cases hl : l.mapM g with
      | error e => rw [ha, hl] at h; cases h
      | ok ds1 =>
        rw [ha, hl] at h
        simp only [bind, Except.bind, pure, Except.pure, Except.ok.injEq] at h
        subst h
        simp [mapM_length g l ds1 hl]

theorem foldlM_render {α : Type} (g : α → Except Error String) (terminator : String) :
    ∀ (l : List α) (bs : List String) (acc : String), l.mapM g = Except.ok bs →
      l.foldlM (fun str statement => do
          let statement_str ← g statement
          pure (str ++ (statement_str ++ terminator))) acc =
        Except.ok (acc ++ terminated terminator bs)
  | [], bs, acc, h => by
    simp only [List.mapM_nil, pure, Except.pure, Except.ok.injEq] at h
    subst h
    simp [terminated, pure, Except.pure]
  | a :: l, bs, acc, h => by
    rw [List.mapM_cons] at h
    rw [List.foldlM_cons]
    cases ha : g a with
    | error e => rw [ha] at h; cases h
    | ok d =>
      cases hl : l.mapM g with
      | error e => rw [ha, hl] at h; cases h
      | ok bs1 =>
        rw [ha, hl] at h
        simp only [bind, Except.bind, pure, Except.pure, Except.ok.injEq] at h
        subst h
        simp only [bind, Except.bind, pure, Except.pure]
        have ih := foldlM_render g terminator l bs1 (acc ++ (d ++ terminator)) hl
        simp only [bind, Except.bind, pure, Except.pure] at ih
        rw [ih, terminated, String.append_assoc]

theorem Module.toString_rendered (name : String) (ports : List Port)
    (body : List ModuleStatement) (ps bs : List String)
    (hports : ports.mapM Port.toString = Except.ok ps)
    (hbody : body.mapM ModuleStatement.variant_to_string = Except.ok bs) :
    (Module.mk name ports body []).toString = Except.ok (moduleText name [] ps bs) := by
  unfold Module.toString
  simp only [hports, List.isEmpty, Bool.not_true, Bool.false_eq_true, if_false, bind,
    Except.bind, pure, Except.pure]
  have hb := foldlM_render ModuleStatement.variant_to_string ";\n" body bs
    ("" ++ ("module " ++ name) ++ " (" ++ join ps ", " ++ ");\n") hbody
  simp only [bind, Except.bind, pure, Except.pure] at hb
  rw [hb]
  simp [moduleText, join_eq_intercalate, String.append_assoc]

theorem Module.toString_parameters (name : String) (ports : List Port)
    (body : List ModuleStatement) (p : Parameter × NumericLiteral)
    (params : List (Parameter × NumericLiteral)) :
    (Module.mk name ports body (p :: params)).toString =
      Except.error (Error.ill_formed "\"parameter \" + it.first") := by
  unfold Module.toString
  simp only [List.isEmpty, Bool.not_false, if_true, List.mapM_cons, Module.parameter_plus,
    bind, Except.bind]

theorem append_left_cancel (a b c : String) (h : a ++ b = a ++ c) : b = c := by
  have hd := congrArg String.data h
  simp only [String.data_append] at hd
  exact String.ext (List.append_cancel_left hd)

theorem mapM_error_foldlM {α : Type} (g : α → Except Error String) (terminator : String) :
    ∀ (l : List α) (e : Error) (acc : String), l.mapM g = Except.error e →
      l.foldlM (fun str statement => do
          let statement_str ← g statement
          pure (str ++ (statement_str ++ terminator))) acc = Except.error e
  | [], e, acc, h => by
    simp only [List.mapM_nil, pure, Except.pure] at h
    cases h
  | a :: l, e, acc, h => by
    rw [List.mapM_cons] at h
    rw [List.foldlM_cons]
    cases ha : g a with
    | error e1 =>
      rw [ha] at h
      simp only [bind, Except.bind, Except.error.injEq] at h
      subst h
      rfl
    | ok d =>
      cases hl : l.mapM g with
      | ok bs1 => rw [ha, hl] at h; cases h
      | error e1 =>
        rw [ha, hl] at h
        simp only [bind, Except.bind, Except.error.injEq] at h
        subst h
        have ih := mapM_error_foldlM g terminator l e1 (acc ++ (d ++ terminator)) hl
        simp only [bind, Except.bind, pure, Except.pure] at ih ⊢
        rw [ih]

theorem Module.rendered_of_toString (name : String) (ports : List Port)
    (body : List ModuleStatement) (text : String)
    (h : (Module.mk name ports body []).toString = Except.ok text) :
    ∃ ps bs, ports.mapM Port.toString = Except.ok ps ∧
      body.mapM ModuleStatement.variant_to_string = Except.ok bs := by
  unfold Module.toString at h
  cases hp : ports.mapM Port.toString with
  | error e =>
    simp only [hp, List.isEmpty, Bool.not_true, Bool.false_eq_true, if_false, bind,
      Except.bind, pure, Except.pure] at h
    cases h
  | ok ps =>
    cases hb : body.mapM ModuleStatement.variant_to_string with
    | ok bs => exact ⟨ps, bs, rfl, rfl⟩
    | error e =>
      have hf := mapM_error_foldlM ModuleStatement.variant_to_string ";\n" body e
        ("" ++ ("module " ++ name) ++ " (" ++ join ps ", " ++ ");\n") hb
      simp only [bind, Except.bind, pure, Except.pure] at hf
      simp only [hp, List.isEmpty, Bool.not_true, Bool.false_eq_true, if_false, bind,
        Except.bind, pure, Except.pure] at h
      rw [hf] at h
      cases h

theorem numericLiteral_toString_cases (n : NumericLiteral) :
    (n._signed = true ∧
        n.toString = Except.error (Error.runtime_error signedNotImplemented)) ∨
      (n._signed = false ∧ ∃ t, n.toString = Except.ok t) := by
  cases hs : n._signed with
  | true => left; exact ⟨rfl, by simp [NumericLiteral.toString, hs]⟩
  | false => right; exact ⟨rfl, _, by simp only [NumericLiteral.toString, hs]; rfl⟩

theorem constantExpression_toString_cases (c : ConstantExpression) :
    (c.hasSigned = true ∧
        c.toString = Except.error (Error.runtime_error signedNotImplemented)) ∨
      (c.hasSigned = false ∧ ∃ t, c.toString = Except.ok t) := by
  induction c with
  | ofParameter p => right; exact ⟨rfl, _, rfl⟩
  | ofNumericLiteral n => exact numericLiteral_toString_cases n
  | ConstantUnaryOp operand op ih =>
    rcases ih with ⟨h, e⟩ | ⟨h, t, e⟩ <;>
      simp [ConstantExpression.toString, ConstantExpression.hasSigned, h, e, bind,
        Except.bind, pure, Except.pure]
  | ConstantTernaryOp cond true_value false_value ihc iht ihf =>
    rcases ihc with ⟨hc, ec⟩ | ⟨hc, tc, ec⟩ <;>
      rcases iht with ⟨ht, et⟩ | ⟨ht, tt, et⟩ <;>
      rcases ihf with ⟨hf, ef⟩ | ⟨hf, tf, ef⟩ <;>
      simp [ConstantExpression.toString, ConstantExpression.hasSigned, hc, ec, ht, et, hf, ef,
        bind, Except.bind, pure, Except.pure]

theorem expression_toString_cases (e : Expression) :
    (e.hasSigned = true ∧
        e.toString = Except.error (Error.runtime_error signedNotImplemented)) ∨
      (e.hasSigned = false ∧ ∃ t, e.toString = Except.ok t) := by
  induction e with
  | ofConstantExpression c => exact constantExpression_toString_cases c
  | ofIdentifier i => right; exact ⟨rfl, _, rfl⟩
  | ofIndex x =>
    rcases constantExpression_toString_cases x.index with ⟨h, e⟩ | ⟨h, t, e⟩ <;>
      simp [Expression.toString, Expression.hasSigned, Index.toString, Identifier.toString,
        h, e, bind, Except.bind, pure, Except.pure]
  | ofSlice x =>
    rcases constantExpression_toString_cases x.high_index with ⟨hh, eh⟩ | ⟨hh, th, eh⟩ <;>
      rcases constantExpression_toString_cases x.low_index with ⟨hl, el⟩ | ⟨hl, tl, el⟩ <;>
      simp [Expression.toString, Expression.hasSigned, Slice.toString, Identifier.toString,
        hh, eh, hl, el, bind, Except.bind, pure, Except.pure]
  | BinaryOp left op right ihl ihr =>
    rcases ihl with ⟨hl, el⟩ | ⟨hl, tl, el⟩ <;>
      rcases ihr with ⟨hr, er⟩ | ⟨hr, tr, er⟩ <;>
      simp [Expression.toString, Expression.hasSigned, hl, el, hr, er, bind, Except.bind,
        pure, Except.pure]
  | ConstantBinaryOp left op right =>
    rcases constantExpression_toString_cases left with ⟨hl, el⟩ | ⟨hl, tl, el⟩ <;>
      rcases constantExpression_toString_cases right with ⟨hr, er⟩ | ⟨hr, tr, er⟩ <;>
      simp [Expression.toString, Expression.hasSigned, ConstantBinaryOp.toString, hl, el, hr,
        er, bind, Except.bind, pure, Except.pure]
  | UnaryOp operand op ih =>
    rcases ih with ⟨h, e⟩ | ⟨h, t, e⟩ <;>
      simp [Expression.toString, Expression.hasSigned, h, e, bind, Except.bind, pure,
        Except.pure]
  | TernaryOp cond true_value false_value ihc iht ihf =>
    rcases ihc with ⟨hc, ec⟩ | ⟨hc, tc, ec⟩ <;>
      rcases iht with ⟨ht, et⟩ | ⟨ht, tt, et⟩ <;>
      rcases ihf with ⟨hf, ef⟩ | ⟨hf, tf, ef⟩ <;>
      simp [Expression.toString, Expression.hasSigned, hc, ec, ht, et, hf, ef, bind,
        Except.bind, pure, Except.pure]
  | NegEdge value ih =>
    rcases ih with ⟨h, e⟩ | ⟨h, t, e⟩ <;>
      simp [Expression.toString, Expression.hasSigned, h, e, bind, Except.bind, pure,
        Except.pure]
  | PosEdge value ih =>
    rcases ih with ⟨h, e⟩ | ⟨h, t, e⟩ <;>
      simp [Expression.toString, Expression.hasSigned, h, e, bind, Except.bind, pure,
        Except.pure]

theorem intercalate_go_length (sep : String) :
    ∀ (l : List String) (acc : String),
      (String.intercalate.go acc sep l).length =
        acc.length + (l.map String.length).sum + l.length * sep.length
  | [], acc => by simp [String.intercalate.go]
  | a :: as, acc => by
    rw [String.intercalate.go, intercalate_go_length sep as]
    simp only [String.length_append, List.map_cons, List.sum_cons, List.length_cons]
    rw [Nat.add_mul]
    omega

theorem join_snoc (xs : List String) (y sep : String) (hxs : xs ≠ []) :
    join (xs ++ [y]) sep = join xs sep ++ sep ++ y := by
  have hpos : 0 < xs.length := List.length_pos.2 hxs
  simp only [join, List.enum, List.enumFrom_append, List.foldl_append, List.enumFrom_cons,
    List.enumFrom_nil, List.foldl_cons, List.foldl_nil, Nat.zero_add, gt_iff_lt, hpos, if_true]

theorem mapM_forall {α : Type} (g : α → Except Error String) (P : String → Prop)
    (hP : ∀ a t, g a = Except.ok t → P t) :
    ∀ (l : List α) (ds : List String), l.mapM g = Except.ok ds → ∀ d ∈ ds, P d
  | [], ds, h => by
    simp only [List.mapM_nil, pure, Except.pure, Except.ok.injEq] at h
    subst h
    intro d hd
    cases hd
  | a :: l, ds, h => by
    rw [List.mapM_cons] at h
    cases ha : g a with
    | error e => rw [ha] at h; cases h
    | ok d0 =>
      cases hl : l.mapM g with
      | error e => rw [ha, hl] at h; cases h
      | ok ds1 =>
        rw [ha, hl] at h
        simp only [bind, Except.bind, pure, Except.pure, Except.ok.injEq] at h
        subst h
        intro d hd
        rcases List.mem_cons.1 hd with hd0 | hd1
        · subst hd0
          exact hP a d ha
        · exact mapM_forall g P hP l ds1 hl d hd1

theorem Module.toString_suffix (m : Module) (text : String)
    (h : m.toString = Except.ok text) : ∃ front : String, text = front ++ "endmodule\n" := by
  unfold Module.toString at h
  simp only [bind, Except.bind, pure, Except.pure] at h
  repeat' split at h
  all_goals first
    | exact ⟨_, (Except.ok.inj h).symm⟩
    | cases h

theorem binaryOp_regrouped_ne (a b c : Expression) (p q : BinOp) :
    Expression.BinaryOp (Expression.BinaryOp a p b) q c ≠
      Expression.BinaryOp a p (Expression.BinaryOp b q c) := by
  intro h
  injection h with h1 _ _
  have hs := congrArg sizeOf h1
  simp only [Expression.BinaryOp.sizeOf_spec] at hs
  omega

theorem singleton_space : String.singleton ' ' = " " := rfl

/-! ## Numeric literals -/

/-- C1: for every value, every size and every radix, rendering the unsigned
literal `NumericLiteral(value, size, false, radix)` succeeds and yields the
decimal numeral of `size` without leading zeros, a single quote, the radix
character (`b`, `o`, `h` or `d`) and then `value` unchanged. -/
theorem numericLiteral_unsigned_toString (value : String) (size : Nat) (radix : Radix) :
    (NumericLiteral.new4 value size false radix).toString =
      Except.ok (decimalNumeral size ++ "'" ++ radixChar radix ++ value) := by
  simp only [NumericLiteral.toString, NumericLiteral.new4, Bool.false_eq_true, if_false,
    to_string_eq_decimalNumeral, push_eq_append]
  cases radix <;> rfl

/-- C2: for every value, size and radix, rendering a literal whose signed flag
is set fails with the runtime error of the unimplemented feature, and so
yields no text. -/
theorem numericLiteral_signed_toString (value : String) (size : Nat) (radix : Radix) :
    (NumericLiteral.new4 value size true radix).toString =
        Except.error (Error.runtime_error signedNotImplemented) ∧
      ∀ text : String,
        (NumericLiteral.new4 value size true radix).toString ≠ Except.ok text := by
  have h : (NumericLiteral.new4 value size true radix).toString =
      Except.error (Error.runtime_error signedNotImplemented) := by
    simp [NumericLiteral.toString, NumericLiteral.new4]
  refine ⟨h, ?_⟩
  intro text
  rw [h]
  simp

/-- C3, the code at the failing input: the literal built by the one-argument
constructor has size 32 and radix decimal, and `NumericLiteral("764")` renders
as `32'd764`, not as the plain value `764`. -/
theorem numericLiteral_one_arg_toString :
    (NumericLiteral.new1 "764").size = 32 ∧
      (NumericLiteral.new1 "764").radix = Radix.DECIMAL ∧
      (NumericLiteral.new1 "764").toString = Except.ok "32'd764" ∧
      (NumericLiteral.new1 "764").toString ≠ Except.ok "764" := by
  refine ⟨rfl, rfl, ?_, ?_⟩ <;> decide

/-- C4: for every value and size, the literal built by the two-argument
constructor is unsigned and decimal, and renders as the decimal numeral of
`size`, then `'d`, then `value`. -/
theorem numericLiteral_two_args_toString (value : String) (size : Nat) :
    (NumericLiteral.new2 value size)._signed = false ∧
      (NumericLiteral.new2 value size).radix = Radix.DECIMAL ∧
      (NumericLiteral.new2 value size).toString =
        Except.ok (decimalNumeral size ++ "'d" ++ value) := by
  refine ⟨rfl, rfl, ?_⟩
  simp only [NumericLiteral.toString, NumericLiteral.new2, Bool.false_eq_true, if_false,
    to_string_eq_decimalNumeral, push_eq_append, String.append_assoc]
  rfl

/-! ## Identifiers -/

/-- C5, the code at the failing inputs: `Identifier("or")` renders as `or` and
`Identifier("instance[5]")` as `instance[5]`; neither is the escaped form
(backslash, name, trailing space), although neither name is a legal simple
identifier. -/
theorem identifier_not_escaped :
    (Identifier.mk "or").toString = Except.ok "or" ∧
      (Identifier.mk "or").toString ≠ Except.ok (escapedIdentifier "or") ∧
      (Identifier.mk "instance[5]").toString = Except.ok "instance[5]" ∧
      (Identifier.mk "instance[5]").toString ≠ Except.ok (escapedIdentifier "instance[5]") ∧
      isSimpleIdentifier ["or"] "or" = false ∧
      isSimpleIdentifier [] "instance[5]" = false := by
  decide

/-- C6: for every name that is a legal simple Verilog identifier (for any table
of reserved keywords), rendering `Identifier(name)` yields exactly `name`. -/
theorem identifier_simple_toString (keywords : List String) (name : String)
    (_h : isSimpleIdentifier keywords name = true) :
    (Identifier.mk name).toString = Except.ok name := rfl

theorem identifier_simple_toString_witness :
    isSimpleIdentifier ["or", "module", "input"] "x" = true ∧
      (Identifier.mk "x").toString = Except.ok "x" :=
  ⟨by decide, identifier_simple_toString ["or", "module", "input"] "x" (by decide)⟩

/-! ## Operators -/

/-- C7: for every binary operator and all operands whose renderings succeed,
`BinaryOp(left, op, right)` renders as the left text, one space, the symbol of
the operator, one space, the right text; the symbol is the one that the table
of section 4.4 gives for the operator, and the table has one for each. -/
theorem binaryOp_toString (left right : Expression) (op : BinOp) (l r : String)
    (hl : left.toString = Except.ok l) (hr : right.toString = Except.ok r) :
    (∃ sym, (op, sym) ∈ binOpSymbols) ∧
      ∀ sym, (op, sym) ∈ binOpSymbols →
        (Expression.BinaryOp left op right).toString =
          Except.ok (l ++ " " ++ sym ++ " " ++ r) := by
  refine ⟨⟨BinaryOp.op_str op, (binOpSymbols_iff op _).2 rfl⟩, ?_⟩
  intro sym hsym
  rw [(binOpSymbols_iff op sym).1 hsym, Expression.toString, hl, hr]
  rfl

theorem binaryOp_toString_witness :
    (Expression.ofIdentifier ⟨"x"⟩).toString = Except.ok "x" ∧
      (Expression.ofIdentifier ⟨"y"⟩).toString = Except.ok "y" ∧
      (Expression.BinaryOp (Expression.ofIdentifier ⟨"x"⟩) BinOp.ALSHIFT
          (Expression.ofIdentifier ⟨"y"⟩)).toString = Except.ok "x <<< y" :=
  ⟨rfl, rfl,
    (binaryOp_toString (Expression.ofIdentifier ⟨"x"⟩) (Expression.ofIdentifier ⟨"y"⟩)
      BinOp.ALSHIFT "x" "y" rfl rfl).2 "<<<" (by decide)⟩

/-- C8: for every unary operator and every operand whose rendering succeeds,
`UnaryOp(operand, op)` renders as the symbol of the operator, one space, then
the operand text; the symbol is the one that the table of section 4.4 gives
for the operator, and the table has one for each. -/
theorem unaryOp_toString (operand : Expression) (op : UnOp) (o : String)
    (ho : operand.toString = Except.ok o) :
    (∃ sym, (op, sym) ∈ unOpSymbols) ∧
      ∀ sym, (op, sym) ∈ unOpSymbols →
        (Expression.UnaryOp operand op).toString = Except.ok (sym ++ " " ++ o) := by
  refine ⟨⟨UnaryOp.op_str op, (unOpSymbols_iff op _).2 rfl⟩, ?_⟩
  intro sym hsym
  rw [(unOpSymbols_iff op sym).1 hsym, Expression.toString, ho]
  rfl

theorem unaryOp_toString_witness :
    (Expression.ofIdentifier ⟨"x"⟩).toString = Except.ok "x" ∧
      (Expression.UnaryOp (Expression.ofIdentifier ⟨"x"⟩) UnOp.NXOR).toString =
        Except.ok "~^ x" :=
  ⟨rfl,
    (unaryOp_toString (Expression.ofIdentifier ⟨"x"⟩) UnOp.NXOR "x" rfl).2 "~^"
      (by decide)⟩

/-- C9: for all expressions `cond`, `t` and `f` whose renderings succeed,
`TernaryOp(cond, t, f)` renders as the text of `cond`, then ` ? `, the text of
`t`, then ` : `, and the text of `f`. -/
theorem ternaryOp_toString (cond t f : Expression) (c a b : String)
    (hc : cond.toString = Except.ok c) (ht : t.toString = Except.ok a)
    (hf : f.toString = Except.ok b) :
    (Expression.TernaryOp cond t f).toString =
      Except.ok (c ++ " ? " ++ a ++ " : " ++ b) := by
  rw [Expression.toString, hc, ht, hf]
  rfl

theorem ternaryOp_toString_witness :
    (Expression.UnaryOp (Expression.ofIdentifier ⟨"x"⟩) UnOp.INVERT).toString =
        Except.ok "~ x" ∧
      (Expression.ofConstantExpression
          (ConstantExpression.ofNumericLiteral (NumericLiteral.new2 "1" 1))).toString =
        Except.ok "1'd1" ∧
      (Expression.ofIdentifier ⟨"y"⟩).toString = Except.ok "y" ∧
      (Expression.TernaryOp
          (Expression.UnaryOp (Expression.ofIdentifier ⟨"x"⟩) UnOp.INVERT)
          (Expression.ofConstantExpression
            (ConstantExpression.ofNumericLiteral (NumericLiteral.new2 "1" 1)))
          (Expression.ofIdentifier ⟨"y"⟩)).toString = Except.ok "~ x ? 1'd1 : y" :=
  ⟨rfl, rfl, rfl,
    ternaryOp_toString
      (Expression.UnaryOp (Expression.ofIdentifier ⟨"x"⟩) UnOp.INVERT)
      (Expression.ofConstantExpression
        (ConstantExpression.ofNumericLiteral (NumericLiteral.new2 "1" 1)))
      (Expression.ofIdentifier ⟨"y"⟩) "~ x" "1'd1" "y" rfl rfl rfl⟩

/-! ## Index -/

/-- C10: for every identifier `base` and every constant expression `idx`
whose rendering succeeds, `Index(base, idx)` renders as the text of `base`,
then `[`, the text of `idx`, then `]`; the same holds when the node is
rendered through `Expression *`. -/
theorem index_toString (base : Identifier) (idx : ConstantExpression) (b i : String)
    (hb : base.toString = Except.ok b) (hi : idx.toString = Except.ok i) :
    (Index.mk base idx).toString = Except.ok (b ++ "[" ++ i ++ "]") ∧
      (Expression.ofIndex (Index.mk base idx)).toString =
        Except.ok (b ++ "[" ++ i ++ "]") := by
  have h : (Index.mk base idx).toString = Except.ok (b ++ "[" ++ i ++ "]") := by
    rw [Index.toString, hb, hi]
    rfl
  refine ⟨h, ?_⟩
  rw [Expression.toString, h]

theorem index_toString_witness :
    (Identifier.mk "x").toString = Except.ok "x" ∧
      (ConstantExpression.ofNumericLiteral
          (NumericLiteral.new4 "0" 8 false Radix.HEX)).toString = Except.ok "8'h0" ∧
      (Index.mk (Identifier.mk "x")
          (ConstantExpression.ofNumericLiteral
            (NumericLiteral.new4 "0" 8 false Radix.HEX))).toString =
        Except.ok "x[8'h0]" :=
  ⟨rfl, rfl,
    (index_toString (Identifier.mk "x")
      (ConstantExpression.ofNumericLiteral (NumericLiteral.new4 "0" 8 false Radix.HEX))
      "x" "8'h0" rfl rfl).1⟩

/-! ## Slice and edges -/

/-- C11: for every identifier `base` and all constant expressions `hi` and `lo`
whose renderings succeed, `Slice(base, hi, lo)` renders as the text of `base`,
then `[`, the text of `hi`, `:`, the text of `lo`, then `]`; the bounds are not
compared, and the same holds when the node is rendered through
`Expression *`. -/
theorem slice_toString (base : Identifier) (hi lo : ConstantExpression) (b h l : String)
    (hb : base.toString = Except.ok b) (hh : hi.toString = Except.ok h)
    (hl : lo.toString = Except.ok l) :
    (Slice.mk base hi lo).toString = Except.ok (b ++ "[" ++ h ++ ":" ++ l ++ "]") ∧
      (Expression.ofSlice (Slice.mk base hi lo)).toString =
        Except.ok (b ++ "[" ++ h ++ ":" ++ l ++ "]") := by
  have hs : (Slice.mk base hi lo).toString =
      Except.ok (b ++ "[" ++ h ++ ":" ++ l ++ "]") := by
    rw [Slice.toString, hb, hh, hl]
    rfl
  refine ⟨hs, ?_⟩
  rw [Expression.toString, hs]

theorem slice_toString_witness :
    (Identifier.mk "x").toString = Except.ok "x" ∧
      (ConstantExpression.ofNumericLiteral (NumericLiteral.new2 "0" 5)).toString =
        Except.ok "5'd0" ∧
      (ConstantExpression.ofNumericLiteral (NumericLiteral.new2 "31" 5)).toString =
        Except.ok "5'd31" ∧
      (Slice.mk (Identifier.mk "x")
          (ConstantExpression.ofNumericLiteral (NumericLiteral.new2 "0" 5))
          (ConstantExpression.ofNumericLiteral (NumericLiteral.new2 "31" 5))).toString =
        Except.ok "x[5'd0:5'd31]" :=
  ⟨rfl, rfl, rfl,
    (slice_toString (Identifier.mk "x")
      (ConstantExpression.ofNumericLiteral (NumericLiteral.new2 "0" 5))
      (ConstantExpression.ofNumericLiteral (NumericLiteral.new2 "31" 5))
      "x" "5'd0" "5'd31" rfl rfl rfl).1⟩

/-- C12: for every expression `e` whose rendering succeeds, `PosEdge(e)` renders
as `posedge ` followed by the text of `e`, and `NegEdge(e)` as `negedge `
followed by the text of `e`. -/
theorem edge_toString (e : Expression) (t : String) (he : e.toString = Except.ok t) :
    (Expression.PosEdge e).toString = Except.ok ("posedge " ++ t) ∧
      (Expression.NegEdge e).toString = Except.ok ("negedge " ++ t) := by
  constructor
  · rw [Expression.toString, he]
    rfl
  · rw [Expression.toString, he]
    rfl

theorem edge_toString_witness :
    (Expression.ofIdentifier ⟨"clk"⟩).toString = Except.ok "clk" ∧
      (Expression.PosEdge (Expression.ofIdentifier ⟨"clk"⟩)).toString =
        Except.ok "posedge clk" ∧
      (Expression.NegEdge (Expression.ofIdentifier ⟨"clk"⟩)).toString =
        Except.ok "negedge clk" :=
  ⟨rfl, edge_toString (Expression.ofIdentifier ⟨"clk"⟩) "clk" rfl⟩

/-! ## Ports -/

/-- C13: for every port target whose rendering succeeds, every direction and
every kind, `Port(target, direction, kind)` renders as the direction word of
section 4.6 (`input`, `output` or `inout`), one space, the kind text (`reg `
for a reg, nothing for a wire), then the text of the target; for a wire the
text is the direction word, one space and the target, with no kind word. -/
theorem port_toString (target : Target) (direction : Direction) (kind : PortType)
    (t : String) (ht : target.variant_to_string = Except.ok t) :
    (∃ w, (direction, w) ∈ directionWords) ∧
      ∀ w, (direction, w) ∈ directionWords →
        (Port.mk target direction kind).toString =
            Except.ok (w ++ " " ++ kindText kind ++ t) ∧
          (Port.mk target direction PortType.WIRE).toString = Except.ok (w ++ " " ++ t) ∧
          (Port.mk target direction PortType.REG).toString =
            Except.ok (w ++ " " ++ "reg " ++ t) := by
  refine ⟨⟨Port.direction_str direction, (directionWords_iff direction _).2 rfl⟩, ?_⟩
  intro w hw
  rw [(directionWords_iff direction w).1 hw]
  refine ⟨?_, ?_, ?_⟩
  · rw [Port.toString, ht]
    cases kind <;> rfl
  · rw [Port.toString, ht]
    show Except.ok (Port.direction_str direction ++ " " ++ "" ++ t) = _
    rw [String.append_empty]
  · rw [Port.toString, ht]
    rfl

theorem port_toString_witness :
    (Target.ofIdentifier ⟨"o"⟩).variant_to_string = Except.ok "o" ∧
      (Port.mk (Target.ofIdentifier ⟨"o"⟩) Direction.OUTPUT PortType.REG).toString =
        Except.ok "output reg o" ∧
      (Port.mk (Target.ofIdentifier ⟨"o"⟩) Direction.OUTPUT PortType.WIRE).toString =
        Except.ok "output o" :=
  ⟨rfl,
    ((port_toString (Target.ofIdentifier ⟨"o"⟩) Direction.OUTPUT PortType.REG "o" rfl).2
      "output" (by decide)).1,
    ((port_toString (Target.ofIdentifier ⟨"o"⟩) Direction.OUTPUT PortType.REG "o" rfl).2
      "output" (by decide)).2.1⟩

/-! ## Modules -/

/-- C14, the code at the failing input: for every module with at least one
formal parameter, the expression `"parameter " + it.first` is evaluated and
has no value, so the module has no text; in particular `test_module` with the
simple ports, no body and the parameters `param0` and `param1` does not
render as `module test_module`, the clause of the two entries
`parameter <p> = <default>`, the ports and `endmodule`. -/
theorem module_parameters_no_text (name : String) (ports : List Port)
    (body : List ModuleStatement) (p : Parameter × NumericLiteral)
    (params : List (Parameter × NumericLiteral)) :
    (Module.mk name ports body (p :: params)).toString =
        Except.error (Error.ill_formed "\"parameter \" + it.first") ∧
      (∀ text, (Module.mk name ports body (p :: params)).toString ≠ Except.ok text) ∧
      moduleText "test_module"
          (parameterEntries
            [(Parameter.mk "param0", NumericLiteral.new1 "0"),
              (Parameter.mk "param1", NumericLiteral.new1 "1")] ["32'd0", "32'd1"])
          ["input i", "output o"] [] =
        "module test_module #(parameter param0 = 32'd0, parameter param1 = 32'd1) " ++
          "(input i, output o);\nendmodule\n" ∧
      (Module.mk "test_module" make_simple_ports []
          [(Parameter.mk "param0", NumericLiteral.new1 "0"),
            (Parameter.mk "param1", NumericLiteral.new1 "1")]).toString ≠
        Except.ok ("module test_module #(parameter param0 = 32'd0, parameter param1 = 32'd1) " ++
          "(input i, output o);\nendmodule\n") := by
  have h := Module.toString_parameters name ports body p params
  refine ⟨h, ?_, by decide, by decide⟩
  intro text ht
  rw [h] at ht
  cases ht

/-- C15, the code: if a module without formal parameters renders as `module `,
its name and a rest, then with one or more formal parameters it does not
render as `module `, the name, ` #(`, a clause, `)` and that rest, for any
clause, since it has no text; and the rest of the module without formal
parameters does not start with ` #(`. -/
theorem module_parameters_header_lost (name : String) (ports : List Port)
    (body : List ModuleStatement) (p : Parameter × NumericLiteral)
    (params : List (Parameter × NumericLiteral)) (rest : String)
    (h0 : (Module.mk name ports body []).toString = Except.ok ("module " ++ name ++ rest)) :
    (¬ ∃ clause : String,
        (Module.mk name ports body (p :: params)).toString =
          Except.ok ("module " ++ name ++ " #(" ++ clause ++ ")" ++ rest)) ∧
      ¬ ∃ t : String, rest = " #(" ++ t := by
  obtain ⟨ps, bs, hports, hbody⟩ := Module.rendered_of_toString name ports body _ h0
  have hrest : rest = " (" ++ ", ".intercalate ps ++ ");\n" ++ terminated ";\n" bs ++
      "endmodule\n" := by
    rw [Module.toString_rendered name ports body ps bs hports hbody] at h0
    have h1 := Except.ok.inj h0
    simp only [moduleText, List.isEmpty, if_true, String.append_assoc] at h1
    have h2 := append_left_cancel _ _ _ (append_left_cancel _ _ _ h1)
    simp only [String.append_assoc]
    rw [← h2]
    exact String.ext (by simp)
  constructor
  · rintro ⟨clause, h⟩
    rw [Module.toString_parameters name ports body p params] at h
    cases h
  · rintro ⟨t, ht⟩
    rw [hrest] at ht
    have hd := congrArg String.data ht
    simp [String.data_append] at hd

theorem module_parameters_header_lost_witness :
    (Module.mk "m" make_simple_ports [] []).toString =
        Except.ok ("module " ++ "m" ++ " (input i, output o);\nendmodule\n") ∧
      (Module.mk "m" make_simple_ports []
          [(Parameter.mk "W", NumericLiteral.new2 "8" 4)]).toString =
        Except.error (Error.ill_formed "\"parameter \" + it.first") ∧
      ¬ ∃ clause : String,
        (Module.mk "m" make_simple_ports []
            [(Parameter.mk "W", NumericLiteral.new2 "8" 4)]).toString =
          Except.ok ("module " ++ "m" ++ " #(" ++ clause ++ ")" ++
            " (input i, output o);\nendmodule\n") :=
  ⟨by decide, by decide,
    (module_parameters_header_lost "m" make_simple_ports []
      (Parameter.mk "W", NumericLiteral.new2 "8" 4) []
      " (input i, output o);\nendmodule\n" (by decide)).1⟩

/-- C16, the code at the failing input: the module `test_module` with the
simple ports, the simple body and no formal parameters renders with the
prefix `32'd` before each literal and with two semicolons after the
instantiation, not as the text of section 8. -/
theorem module_end_to_end :
    (Module.mk "test_module" make_simple_ports make_simple_body []).toString =
        Except.ok ("module test_module (input i, output o);\n" ++
          "other_module #(.param0(32'd0), .param1(32'd1)) " ++
          "other_module_inst(.a(a), .b(b[32'd0]), .c(c[32'd31:32'd0]));;\n" ++
          "endmodule\n") ∧
      (Module.mk "test_module" make_simple_ports make_simple_body []).toString ≠
        Except.ok ("module test_module (input i, output o);\n" ++
          "other_module #(.param0(0), .param1(1)) " ++
          "other_module_inst(.a(a), .b(b[0]), .c(c[31:0]));\n" ++
          "endmodule\n") := by
  constructor <;> decide

/-! ## Always blocks and assignments -/

/-- C17: for every body, constructing an `Always` node fails if and only if the
sensitivity list is empty, and then with the runtime error of the constructor;
with a non-empty list it yields the node with that list and body, so every
node that the constructor yields has a non-empty sensitivity list. -/
theorem always_new (sensitivity_list : List SensitivityItem) (body : List AlwaysStatement) :
    ((∃ e, Always.new sensitivity_list body = Except.error e) ↔ sensitivity_list = []) ∧
      (Always.new [] body = Except.error (Error.runtime_error emptySensitivityList)) ∧
      (sensitivity_list ≠ [] →
        Always.new sensitivity_list body = Except.ok (Always.mk sensitivity_list body)) ∧
      ∀ a, Always.new sensitivity_list body = Except.ok a →
        a.sensitivity_list ≠ [] ∧ a.sensitivity_list = sensitivity_list ∧ a.body = body := by
  cases sensitivity_list with
  | nil =>
    refine ⟨⟨fun _ => rfl, fun _ => ⟨_, rfl⟩⟩, rfl, fun h => absurd rfl h, ?_⟩
    intro a h
    cases h
  | cons item items =>
    refine ⟨⟨?_, fun h => by cases h⟩, rfl, fun _ => rfl, ?_⟩
    · rintro ⟨e, h⟩
      cases h
    · intro a h
      have ha : a = Always.mk (item :: items) body := (Except.ok.inj h).symm
      subst ha
      exact ⟨by simp, rfl, rfl⟩

/-- C18: for every assignment target and every value expression whose
renderings succeed, `ContinuousAssign(target, value)` renders as `assign `,
the target, ` = `, the value and `;`, `BlockingAssign(target, value)` as the
target, ` = `, the value and `;`, and `NonBlockingAssign(target, value)` as the
target, ` <= `, the value and `;`; the same texts come out through the
statement base classes. -/
theorem assign_toString (target : Target) (value : Expression) (t v : String)
    (ht : target.variant_to_string = Except.ok t) (hv : value.toString = Except.ok v) :
    (ContinuousAssign.new target value).toString =
        Except.ok ("assign " ++ t ++ " = " ++ v ++ ";") ∧
      (BlockingAssign.new target value).toString = Except.ok (t ++ " = " ++ v ++ ";") ∧
      (NonBlockingAssign.new target value).toString = Except.ok (t ++ " <= " ++ v ++ ";") ∧
      (StructuralStatement.ContinuousAssign target value).toString =
        Except.ok ("assign " ++ t ++ " = " ++ v ++ ";") ∧
      (BehavioralStatement.BlockingAssign target value).toString =
        Except.ok (t ++ " = " ++ v ++ ";") ∧
      (BehavioralStatement.NonBlockingAssign target value).toString =
        Except.ok (t ++ " <= " ++ v ++ ";") := by
  have hc : (ContinuousAssign.new target value).toString =
      Except.ok ("assign " ++ t ++ " = " ++ v ++ ";") := by
    simp only [Assign.toString, ContinuousAssign.new, Assign.new3, ht, hv]
    exact congrArg Except.ok (String.ext (by simp))
  have hb : (BlockingAssign.new target value).toString =
      Except.ok (t ++ " = " ++ v ++ ";") := by
    simp only [Assign.toString, BlockingAssign.new, Assign.new3, ht, hv]
    exact congrArg Except.ok (String.ext (by simp))
  have hn : (NonBlockingAssign.new target value).toString =
      Except.ok (t ++ " <= " ++ v ++ ";") := by
    simp only [Assign.toString, NonBlockingAssign.new, Assign.new4, ht, hv]
    exact congrArg Except.ok (String.ext (by simp))
  exact ⟨hc, hb, hn, hc, hb, hn⟩

theorem assign_toString_witness :
    (Target.ofIdentifier ⟨"a"⟩).variant_to_string = Except.ok "a" ∧
      (Expression.ofIdentifier ⟨"b"⟩).toString = Except.ok "b" ∧
      (ContinuousAssign.new (Target.ofIdentifier ⟨"a"⟩)
          (Expression.ofIdentifier ⟨"b"⟩)).toString = Except.ok "assign a = b;" ∧
      (BlockingAssign.new (Target.ofIdentifier ⟨"a"⟩)
          (Expression.ofIdentifier ⟨"b"⟩)).toString = Except.ok "a = b;" ∧
      (NonBlockingAssign.new (Target.ofIdentifier ⟨"a"⟩)
          (Expression.ofIdentifier ⟨"b"⟩)).toString = Except.ok "a <= b;" :=
  ⟨rfl, rfl,
    (assign_toString (Target.ofIdentifier ⟨"a"⟩) (Expression.ofIdentifier ⟨"b"⟩) "a" "b"
      rfl rfl).1,
    (assign_toString (Target.ofIdentifier ⟨"a"⟩) (Expression.ofIdentifier ⟨"b"⟩) "a" "b"
      rfl rfl).2.1,
    (assign_toString (Target.ofIdentifier ⟨"a"⟩) (Expression.ofIdentifier ⟨"b"⟩) "a" "b"
      rfl rfl).2.2.1⟩

/-! ## Module instantiation -/

/-- C19: for every module instantiation whose parameter values and connections
render successfully, the text is the module name, then, only when the list of
actual parameters is non-empty, ` #(` with the entries `.<param>(<value>)`
joined by `, ` in list order and `)`, then a space, the instance name, `(`
with the entries `.<port>(<connection>)` joined by `, ` in the order of the
map and `);`; the port names of the map are ascending, and with an empty list
of parameters the instance name follows the module name after one space. -/
theorem moduleInstantiation_toString (module_name : String)
    (params : List (Parameter × ConstantExpression)) (instance_name : String)
    (connections : Connections) (vs cs : List String)
    (hparams : params.mapM (fun it => it.2.toString) = Except.ok vs)
    (hconns : connections.entries.mapM (fun it => it.2.variant_to_string) = Except.ok cs) :
    (ModuleInstantiation.mk module_name params instance_name connections).toString =
        Except.ok (module_name ++
          (if params.isEmpty then ""
            else " #(" ++
              ", ".intercalate
                (List.zipWith (fun it v => "." ++ it.1.name ++ "(" ++ v ++ ")") params vs) ++
              ")") ++
          " " ++ instance_name ++ "(" ++
          ", ".intercalate
            (List.zipWith (fun it c => "." ++ it.1 ++ "(" ++ c ++ ")") connections.entries cs) ++
          ");") ∧
      connections.entries.Pairwise (fun a b => a.1.toList < b.1.toList) ∧
      (params = [] →
        (ModuleInstantiation.mk module_name params instance_name connections).toString =
          Except.ok (module_name ++ " " ++ instance_name ++ "(" ++
            ", ".intercalate
              (List.zipWith (fun it c => "." ++ it.1 ++ "(" ++ c ++ ")")
                connections.entries cs) ++
            ");")) := by
  have hp : params.mapM (fun it => do
      let p ← it.1.toString
      let v ← it.2.toString
      pure ("." ++ p ++ "(" ++ v ++ ")")) =
      Except.ok (List.zipWith (fun it v => "." ++ it.1.name ++ "(" ++ v ++ ")") params vs) :=
    mapM_render (fun it => it.2.toString) (fun it v => "." ++ it.1.name ++ "(" ++ v ++ ")")
      params vs hparams
  have hc : connections.entries.mapM (fun it => do
      let c ← it.2.variant_to_string
      pure ("." ++ it.1 ++ "(" ++ c ++ ")")) =
      Except.ok (List.zipWith (fun it c => "." ++ it.1 ++ "(" ++ c ++ ")")
        connections.entries cs) :=
    mapM_render (fun it => it.2.variant_to_string) (fun it c => "." ++ it.1 ++ "(" ++ c ++ ")")
      connections.entries cs hconns
  have hlen := mapM_length (fun it => it.2.toString) params vs hparams
  have main : (ModuleInstantiation.mk module_name params instance_name connections).toString =
      Except.ok (module_name ++
        (if params.isEmpty then ""
          else " #(" ++
            ", ".intercalate
              (List.zipWith (fun it v => "." ++ it.1.name ++ "(" ++ v ++ ")") params vs) ++
            ")") ++
        " " ++ instance_name ++ "(" ++
        ", ".intercalate
          (List.zipWith (fun it c => "." ++ it.1 ++ "(" ++ c ++ ")") connections.entries cs) ++
        ");") := by
    unfold ModuleInstantiation.toString
    simp only [hp, hc]
    cases params with
    | nil =>
      simp only [List.isEmpty, Bool.not_true, Bool.false_eq_true, if_false, if_true, bind,
        Except.bind, pure, Except.pure, join_eq_intercalate, String.append_empty]
    | cons p params1 =>
      simp only [List.isEmpty, Bool.not_false, Bool.false_eq_true, if_false, if_true, bind,
        Except.bind, pure, Except.pure, join_eq_intercalate, String.append_assoc]
  refine ⟨main, connections.ascending, ?_⟩
  intro hnil
  rw [main]
  subst hnil
  simp only [List.isEmpty, if_true, String.append_empty]

theorem moduleInstantiation_toString_witness :
    make_simple_params.mapM (fun it => it.2.toString) = Except.ok ["32'd0", "32'd1"] ∧
      make_simple_connections.entries.mapM (fun it => it.2.variant_to_string) =
        Except.ok ["a", "b[32'd0]", "c[32'd31:32'd0]"] ∧
      (ModuleInstantiation.mk "test_module" make_simple_params "test_module_inst"
          make_simple_connections).toString =
        Except.ok ("test_module" ++
          (if make_simple_params.isEmpty then ""
            else " #(" ++
              ", ".intercalate
                (List.zipWith (fun it v => "." ++ it.1.name ++ "(" ++ v ++ ")")
                  make_simple_params ["32'd0", "32'd1"]) ++
              ")") ++
          " " ++ "test_module_inst" ++ "(" ++
          ", ".intercalate
            (List.zipWith (fun it c => "." ++ it.1 ++ "(" ++ c ++ ")")
              make_simple_connections.entries ["a", "b[32'd0]", "c[32'd31:32'd0]"]) ++
          ");") ∧
      (ModuleInstantiation.mk "test_module" make_simple_params "test_module_inst"
          make_simple_connections).toString =
        Except.ok ("test_module #(.param0(32'd0), .param1(32'd1)) " ++
          "test_module_inst(.a(a), .b(b[32'd0]), .c(c[32'd31:32'd0]));") :=
  ⟨by decide, by decide,
    (moduleInstantiation_toString "test_module" make_simple_params "test_module_inst"
      make_simple_connections ["32'd0", "32'd1"] ["a", "b[32'd0]", "c[32'd31:32'd0]"]
      (by decide) (by decide)).1,
    by decide⟩

/-! ## Rendering of always blocks -/

/-- C21: for every list of modules whose renderings succeed, the file renders
as the module texts in list order joined by one newline, with no separator
before the first or after the last; each module text ends with `endmodule` and
a newline, so one blank line stands between consecutive modules. -/
theorem file_toString (modules : List Module) (ms : List String)
    (h : modules.mapM Module.toString = Except.ok ms) :
    (File.mk modules).toString = Except.ok ("\n".intercalate ms) ∧
      ∀ m ∈ ms, ∃ front : String, m = front ++ "endmodule\n" := by
  constructor
  · rw [File.toString]
    simp only [h, bind, Except.bind, pure, Except.pure, join_eq_intercalate]
  · exact mapM_forall Module.toString (fun t => ∃ front : String, t = front ++ "endmodule\n")
      (fun m t ht => Module.toString_suffix m t ht) modules ms h

theorem file_toString_witness :
    [Module.mk "m0" [] [] [], Module.mk "m1" make_simple_ports [] []].mapM Module.toString =
        Except.ok ["module m0 ();\nendmodule\n",
          "module m1 (input i, output o);\nendmodule\n"] ∧
      (File.mk [Module.mk "m0" [] [] [], Module.mk "m1" make_simple_ports [] []]).toString =
        Except.ok ("\n".intercalate ["module m0 ();\nendmodule\n",
          "module m1 (input i, output o);\nendmodule\n"]) ∧
      "\n".intercalate ["module m0 ();\nendmodule\n",
          "module m1 (input i, output o);\nendmodule\n"] =
        "module m0 ();\nendmodule\n\nmodule m1 (input i, output o);\nendmodule\n" :=
  ⟨by decide,
    (file_toString [Module.mk "m0" [] [] [], Module.mk "m1" make_simple_ports [] []]
      ["module m0 ();\nendmodule\n", "module m1 (input i, output o);\nendmodule\n"]
      (by decide)).1,
    by decide⟩

/-! ## Grouping and failure of expressions -/

/-- C22: for all expressions `a`, `b`, `c` whose renderings succeed and all
binary operators `p` and `q` with their symbols, the tree grouped to the left
and the tree grouped to the right both render as the text of `a`, the symbol
of `p`, the text of `b`, the symbol of `q` and the text of `c`, separated by
single spaces and without parentheses; the two trees are different, so
rendering is not injective. -/
theorem binaryOp_grouping_lost (a b c : Expression) (p q : BinOp)
    (ta tb tc sp sq : String)
    (ha : a.toString = Except.ok ta) (hb : b.toString = Except.ok tb)
    (hc : c.toString = Except.ok tc)
    (hp : (p, sp) ∈ binOpSymbols) (hq : (q, sq) ∈ binOpSymbols) :
    (Expression.BinaryOp (Expression.BinaryOp a p b) q c).toString =
        Except.ok (ta ++ " " ++ sp ++ " " ++ tb ++ " " ++ sq ++ " " ++ tc) ∧
      (Expression.BinaryOp a p (Expression.BinaryOp b q c)).toString =
        Except.ok (ta ++ " " ++ sp ++ " " ++ tb ++ " " ++ sq ++ " " ++ tc) ∧
      Expression.BinaryOp (Expression.BinaryOp a p b) q c ≠
        Expression.BinaryOp a p (Expression.BinaryOp b q c) ∧
      ¬ Function.Injective Expression.toString := by
  have hl : (Expression.BinaryOp (Expression.BinaryOp a p b) q c).toString =
      Except.ok (ta ++ " " ++ sp ++ " " ++ tb ++ " " ++ sq ++ " " ++ tc) := by
    rw [(binOpSymbols_iff p sp).1 hp, (binOpSymbols_iff q sq).1 hq, Expression.toString,
      Expression.toString, ha, hb, hc]
    rfl
  have hr : (Expression.BinaryOp a p (Expression.BinaryOp b q c)).toString =
      Except.ok (ta ++ " " ++ sp ++ " " ++ tb ++ " " ++ sq ++ " " ++ tc) := by
    rw [(binOpSymbols_iff p sp).1 hp, (binOpSymbols_iff q sq).1 hq, Expression.toString,
      Expression.toString, ha, hb, hc]
    simp only [bind, Except.bind, pure, Except.pure, push_eq_append, singleton_space,
      String.append_assoc]
  refine ⟨hl, hr, binaryOp_regrouped_ne a b c p q, ?_⟩
  intro hinj
  exact binaryOp_regrouped_ne a b c p q (hinj (hl.trans hr.symm))

theorem binaryOp_grouping_lost_witness :
    (Expression.ofIdentifier ⟨"a"⟩).toString = Except.ok "a" ∧
      (Expression.ofIdentifier ⟨"b"⟩).toString = Except.ok "b" ∧
      (Expression.ofIdentifier ⟨"c"⟩).toString = Except.ok "c" ∧
      (BinOp.SUB, "-") ∈ binOpSymbols ∧ (BinOp.MUL, "*") ∈ binOpSymbols ∧
      (Expression.BinaryOp
          (Expression.BinaryOp (Expression.ofIdentifier ⟨"a"⟩) BinOp.SUB
            (Expression.ofIdentifier ⟨"b"⟩))
          BinOp.MUL (Expression.ofIdentifier ⟨"c"⟩)).toString = Except.ok "a - b * c" ∧
      (Expression.BinaryOp (Expression.ofIdentifier ⟨"a"⟩) BinOp.SUB
          (Expression.BinaryOp (Expression.ofIdentifier ⟨"b"⟩) BinOp.MUL
            (Expression.ofIdentifier ⟨"c"⟩))).toString = Except.ok "a - b * c" :=
  ⟨rfl, rfl, rfl, by decide, by decide,
    (binaryOp_grouping_lost (Expression.ofIdentifier ⟨"a"⟩) (Expression.ofIdentifier ⟨"b"⟩)
      (Expression.ofIdentifier ⟨"c"⟩) BinOp.SUB BinOp.MUL "a" "b" "c" "-" "*" rfl rfl rfl
      (by decide) (by decide)).1,
    (binaryOp_grouping_lost (Expression.ofIdentifier ⟨"a"⟩) (Expression.ofIdentifier ⟨"b"⟩)
      (Expression.ofIdentifier ⟨"c"⟩) BinOp.SUB BinOp.MUL "a" "b" "c" "-" "*" rfl rfl rfl
      (by decide) (by decide)).2.1⟩

/-- C23: for every expression tree built from `Identifier`, `Parameter`,
`NumericLiteral`, `Index`, `Slice`, `BinaryOp`, `UnaryOp`, `TernaryOp`,
`NegEdge` and `PosEdge`, rendering fails if and only if some literal of the
tree has its signed flag set; the failure is the runtime error of the
unimplemented feature and no text is returned with it, and without such a
literal rendering returns a text. -/
theorem expression_toString_fails_iff (e : Expression) (_h : e.isGeneral = true) :
    ((∃ err, e.toString = Except.error err) ↔ e.hasSigned = true) ∧
      (e.hasSigned = true →
        e.toString = Except.error (Error.runtime_error signedNotImplemented) ∧
          ∀ text, e.toString ≠ Except.ok text) ∧
      (e.hasSigned = false → ∃ text, e.toString = Except.ok text) := by
  rcases expression_toString_cases e with ⟨hs, he⟩ | ⟨hs, t, he⟩
  · refine ⟨⟨fun _ => hs, fun _ => ⟨_, he⟩⟩, fun _ => ⟨he, ?_⟩, ?_⟩
    · intro text ht
      rw [he] at ht
      cases ht
    · intro hf
      rw [hs] at hf
      cases hf
  · refine ⟨⟨?_, ?_⟩, ?_, fun _ => ⟨t, he⟩⟩
    · rintro ⟨err, herr⟩
      rw [he] at herr
      cases herr
    · intro ht
      rw [hs] at ht
      cases ht
    · intro ht
      rw [hs] at ht
      cases ht

theorem expression_toString_fails_iff_witness :
    (Expression.BinaryOp
        (Expression.ofIndex (Index.mk (Identifier.mk "x")
          (ConstantExpression.ofNumericLiteral (NumericLiteral.new3 "1" 8 true))))
        BinOp.ADD (Expression.ofIdentifier ⟨"y"⟩)).isGeneral = true ∧
      (Expression.BinaryOp
        (Expression.ofIndex (Index.mk (Identifier.mk "x")
          (ConstantExpression.ofNumericLiteral (NumericLiteral.new3 "1" 8 true))))
        BinOp.ADD (Expression.ofIdentifier ⟨"y"⟩)).hasSigned = true ∧
      (Expression.BinaryOp
        (Expression.ofIndex (Index.mk (Identifier.mk "x")
          (ConstantExpression.ofNumericLiteral (NumericLiteral.new3 "1" 8 true))))
        BinOp.ADD (Expression.ofIdentifier ⟨"y"⟩)).toString =
        Except.error (Error.runtime_error signedNotImplemented) :=
  ⟨rfl, rfl,
    ((expression_toString_fails_iff
      (Expression.BinaryOp
        (Expression.ofIndex (Index.mk (Identifier.mk "x")
          (ConstantExpression.ofNumericLiteral (NumericLiteral.new3 "1" 8 true))))
        BinOp.ADD (Expression.ofIdentifier ⟨"y"⟩)) rfl).2.1 rfl).1⟩

/-! ## Constant binary operators -/

/-- C24, the code: `ConstantBinaryOp` derives from `Expression`, so no
constant expression is a `ConstantBinaryOp` node, for any operator and
operands, while a `ConstantUnaryOp` over the same operand is one and is
taken as the index of an `Index`; the text of the node equals that of the
`BinaryOp` over the same operands and operator. -/
theorem constantBinaryOp_not_constant (l r : ConstantExpression) (op : BinOp) :
    (∀ c : ConstantExpression,
        Expression.ofConstantExpression c ≠ Expression.ConstantBinaryOp l op r) ∧
      (∃ c : ConstantExpression,
        c = ConstantExpression.ConstantUnaryOp l UnOp.MINUS ∧
          (Index.mk (Identifier.mk "x") c).index = c) ∧
      (Expression.ConstantBinaryOp l op r).toString =
        (Expression.BinaryOp (Expression.ofConstantExpression l) op
          (Expression.ofConstantExpression r)).toString := by
  refine ⟨?_, ⟨_, rfl, rfl⟩, ?_⟩
  · intro c h
    cases h
  · simp only [Expression.toString, ConstantBinaryOp.toString]

/-! ## The function join -/

/-- C25: for every separator, `join` of the empty list is the empty string,
`join` of a single element is that element, `join` of a non-empty list `xs`
followed by `y` is `join` of `xs`, the separator and `y`; for a non-empty list
the length of the result is the sum of the lengths of the elements plus the
length of the separator once for each element but the first; and the result
is the list intercalated with the separator. -/
theorem join_spec (vec xs : List String) (x y sep : String) (hxs : xs ≠ [])
    (hvec : vec ≠ []) :
    join [] sep = "" ∧ join [x] sep = x ∧
      join (xs ++ [y]) sep = join xs sep ++ sep ++ y ∧
      (join vec sep).length =
        (vec.map String.length).sum + (vec.length - 1) * sep.length ∧
      join vec sep = sep.intercalate vec := by
  refine ⟨rfl, ?_, join_snoc xs y sep hxs, ?_, join_eq_intercalate vec sep⟩
  · rw [join_eq_intercalate]
    rfl
  · rw [join_eq_intercalate]
    cases vec with
    | nil => exact absurd rfl hvec
    | cons a as =>
      rw [String.intercalate, intercalate_go_length]
      simp only [List.map_cons, List.sum_cons, List.length_cons, Nat.add_sub_cancel]

theorem join_spec_witness :
    ["a", "bc"] ≠ [] ∧ ["x", "yz", "w"] ≠ [] ∧
      join (["a", "bc"] ++ ["d"]) ", " = join ["a", "bc"] ", " ++ ", " ++ "d" ∧
      join ["a", "bc", "d"] ", " = "a, bc, d" ∧
      (join ["x", "yz", "w"] ", ").length =
        (["x", "yz", "w"].map String.length).sum + (["x", "yz", "w"].length - 1) * ", ".length :=
  ⟨by decide, by decide,
    (join_spec ["x", "yz", "w"] ["a", "bc"] "q" "d" ", " (by decide) (by decide)).2.2.1,
    by decide,
    (join_spec ["x", "yz", "w"] ["a", "bc"] "q" "d" ", " (by decide) (by decide)).2.2.2.1⟩

end verilogAST
